import Mathlib

/-!
Verification development for the agent compute-trading simulator.

Shallow embedding notes:
* Python `float` quantities (resource amounts, budgets, prices, reputation
  scores, probabilities) are modelled as exact rationals `ℚ`.
* Python `dict[str, X]` values (reputation tables, pool allocations) are
  modelled as association lists `List (String × X)` with first-match lookup
  and replace-in-place update, matching insertion-ordered dict semantics.
* `Message.msg_id`, `Message.timestamp` and `Message.reply_to` are random /
  wall-clock identifiers with no semantic role in any negotiation or
  settlement decision; they are omitted from the embedding.
* The only `raise` in the modelled code (`Agent.initiate_negotiation`) is
  modelled with `Except String`.
-/

namespace AgentNeg

/-- First-match lookup in an insertion-ordered association list
(Python `dict.get`). -/
def lookupKey {α : Type} : List (String × α) → String → Option α
  | [], _ => none
  | (k, v) :: rest, key => if k = key then some v else lookupKey rest key

/-- Replace-in-place update of an insertion-ordered association list
(Python `dict[key] = value`): overwrite the first entry with the key,
or append a new entry at the end. -/
def setKey {α : Type} : List (String × α) → String → α → List (String × α)
  | [], key, v => [(key, v)]
  | (k, w) :: rest, key, v =>
    if k = key then (key, v) :: rest else (k, w) :: setKey rest key v

/-- `agents/resource.py` `Resource`: a bundle of abstract compute units. -/
structure Resource where
  gpu_hours : ℚ := 0
  cpu_hours : ℚ := 0
  memory_gb_hours : ℚ := 0
deriving DecidableEq, Repr

/-- `Resource.__add__`. -/
def Resource.add (a b : Resource) : Resource :=
  { gpu_hours := a.gpu_hours + b.gpu_hours
    cpu_hours := a.cpu_hours + b.cpu_hours
    memory_gb_hours := a.memory_gb_hours + b.memory_gb_hours }

/-- `Resource.__sub__`. -/
def Resource.sub (a b : Resource) : Resource :=
  { gpu_hours := a.gpu_hours - b.gpu_hours
    cpu_hours := a.cpu_hours - b.cpu_hours
    memory_gb_hours := a.memory_gb_hours - b.memory_gb_hours }

/-- `Resource.__mul__` (scaling by a scalar). -/
def Resource.scale (a : Resource) (scalar : ℚ) : Resource :=
  { gpu_hours := a.gpu_hours * scalar
    cpu_hours := a.cpu_hours * scalar
    memory_gb_hours := a.memory_gb_hours * scalar }

instance : Add Resource := ⟨Resource.add⟩
instance : Sub Resource := ⟨Resource.sub⟩

/-- `Resource.total_units`: collapse to a single scalar. -/
def Resource.total_units (r : Resource) : ℚ :=
  r.gpu_hours + r.cpu_hours + r.memory_gb_hours

/-- `Resource.can_afford`: every dimension of `self` at least the
corresponding dimension of `cost`. -/
def Resource.can_afford (self cost : Resource) : Bool :=
  decide (cost.gpu_hours ≤ self.gpu_hours)
    && decide (cost.cpu_hours ≤ self.cpu_hours)
    && decide (cost.memory_gb_hours ≤ self.memory_gb_hours)

/-- Serialized form of a `Resource` (`to_dict`/`from_dict` wire mapping);
each key is optional and defaults to 0 on read. -/
structure ResourceDict where
  gpu_hours : Option ℚ := none
  cpu_hours : Option ℚ := none
  memory_gb_hours : Option ℚ := none
deriving DecidableEq, Repr

/-- `Resource.to_dict`. -/
def Resource.to_dict (r : Resource) : ResourceDict :=
  { gpu_hours := some r.gpu_hours
    cpu_hours := some r.cpu_hours
    memory_gb_hours := some r.memory_gb_hours }

/-- `Resource.from_dict`: missing keys default to 0. -/
def Resource.from_dict (d : ResourceDict) : Resource :=
  { gpu_hours := d.gpu_hours.getD 0
    cpu_hours := d.cpu_hours.getD 0
    memory_gb_hours := d.memory_gb_hours.getD 0 }

/-- `agents/resource.py` `ResourcePool`: total capacity plus a mapping from
agent id to allocated vector. -/
structure ResourcePool where
  total : Resource
  allocated : List (String × Resource)
deriving DecidableEq, Repr

/-- The accumulation loop inside `ResourcePool.available`:
`used = Resource(); for r in allocated.values(): used = used + r`. -/
def usedOf (l : List (String × Resource)) : Resource :=
  l.foldl (fun acc kv => acc + kv.2) {}

/-- `ResourcePool.available` (derived, never stored): total minus used. -/
def ResourcePool.available (p : ResourcePool) : Resource :=
  p.total - usedOf p.allocated

/-- `ResourcePool.allocate`: fail with no mutation if `available` cannot
afford the amount, otherwise add the amount to that agent's allocation. -/
def ResourcePool.allocate (p : ResourcePool) (agent_id : String)
    (amount : Resource) : Bool × ResourcePool :=
  if p.available.can_afford amount then
    let current := (lookupKey p.allocated agent_id).getD {}
    (true, { p with allocated := setKey p.allocated agent_id (current + amount) })
  else
    (false, p)

/-- `ResourcePool.release`: unconditional subtraction (unchecked). -/
def ResourcePool.release (p : ResourcePool) (agent_id : String)
    (amount : Resource) : ResourcePool :=
  let current := (lookupKey p.allocated agent_id).getD {}
  { p with allocated := setKey p.allocated agent_id (current - amount) }

/-- Spec-side componentwise sum of the allocated vectors
(the `Σ allocated` of the testable property in spec §8). -/
def sumAlloc (l : List (String × Resource)) : Resource :=
  (l.map Prod.snd).foldr (· + ·) {}

/-- Fold a sequence of `allocate` calls over a pool, keeping only the
pool state (the returned success flags are discarded). -/
def runAllocs (p : ResourcePool) (calls : List (String × Resource)) : ResourcePool :=
  calls.foldl (fun q c => (q.allocate c.1 c.2).2) p

/-- `agents/protocol.py` `MessageType`. -/
inductive MessageType where
  | request
  | offer
  | counter
  | accept
  | reject
  | query_reputation
  | reputation_response
  | allocate
  | release
  | default
deriving DecidableEq, Repr

/-- The free-form `dict[str, Any]` message payload, restricted to the keys
the modelled code ever reads or writes. A `none` field is an absent key. -/
structure Payload where
  resource : Option ResourceDict := none
  max_price : Option ℚ := none
  price : Option ℚ := none
  urgency : Option ℚ := none
  reason : Option String := none
  broker : Option String := none
  query : Option String := none
deriving DecidableEq, Repr

/-- `agents/protocol.py` `Message` (without the non-semantic `msg_id`,
`timestamp`, `reply_to` fields, see the header note). -/
structure Message where
  msg_type : MessageType
  sender_id : String
  receiver_id : String
  payload : Payload := {}
deriving DecidableEq, Repr

/-- `Message.reply`: swap sender and receiver, new type and payload. -/
def Message.reply (m : Message) (t : MessageType) (p : Payload) : Message :=
  { msg_type := t, sender_id := m.receiver_id, receiver_id := m.sender_id
    payload := p }

/-- `agents/agent.py` `Deal`: record of a completed deal. -/
structure Deal where
  partner_id : String
  resource : Resource
  price : ℚ
  round_num : ℕ
  fulfilled : Bool := true
deriving DecidableEq, Repr

/-- The closed set of strategy variants (`agents/strategies.py` plus
`CheaterStrategy` from `experiments/exp3_trust.py`), each constructor
carrying that variant's configuration and mutable instance state. -/
inductive Strategy where
  | greedy (greed_factor : ℚ)
  | fair (fairness_tolerance : ℚ)
  | patient (patience : ℚ) (rounds_waited : ℕ)
  | adaptive (price_belief learning_rate : ℚ) (history : List ℚ)
  | broker (commission_rate : ℚ) (known_providers known_seekers : List String)
  | cheater (cheat_probability : ℚ) (accepted_count cheated_count : ℕ)
deriving DecidableEq, Repr

/-- `strategies.py` `_price_per_unit`: 1 currency per total unit. -/
def price_per_unit (resource : Resource) : ℚ :=
  resource.total_units

/-- `AdaptiveStrategy._update_belief`: on a positive unit count, append the
observed per-unit price to the history and move the belief toward it by the
learning rate. Returns (new belief, new history). -/
def adaptiveUpdate (belief learning_rate : ℚ) (history : List ℚ)
    (actual_price units : ℚ) : ℚ × List ℚ :=
  if 0 < units then
    let per_unit := actual_price / units
    (belief + learning_rate * (per_unit - belief), history ++ [per_unit])
  else
    (belief, history)

/-- `decide(self, agent, msg)` for every strategy variant. The agent
arguments the strategies actually read (`agent_id`, `resources`, `budget`)
are passed explicitly; the returned `Strategy` is the (possibly mutated)
strategy instance. A `payload.get("price", float("inf"))` in the source is
modelled by matching on the optional `price` key: an absent key behaves as
IEEE infinity, i.e. every `price <= x` test is false and every
`budget >= price` test is false. The `msg.payload["resource"]` subscript in
the source raises `KeyError` when the key is absent; that path is modelled
as "no reply" (it is unreachable from engine-driven flows, where every
REQUEST/OFFER/COUNTER payload carries a resource). -/
def Strategy.decide (s : Strategy) (agent_id : String) (resources : Resource)
    (budget : ℚ) (msg : Message) : Strategy × Option Message :=
  match s with
  | .greedy greed_factor =>
    match msg.msg_type with
    | .request =>
      match msg.payload.resource with
      | none => (s, none)
      | some rd =>
        let requested := Resource.from_dict rd
        let their_max := msg.payload.max_price.getD 0
        let our_price := price_per_unit requested * (1 + (1 - greed_factor))
        if resources.can_afford requested = false then
          (s, some (msg.reply .reject { reason := some "insufficient_resources" }))
        else if our_price ≤ their_max then
          (s, some (msg.reply .accept
            { resource := some requested.to_dict, price := some our_price }))
        else
          (s, some (msg.reply .counter
            { resource := some requested.to_dict, price := some our_price }))
    | .offer | .counter =>
      match msg.payload.resource with
      | none => (s, none)
      | some rd =>
        let resource := Resource.from_dict rd
        let acceptable := price_per_unit resource * greed_factor
        match msg.payload.price with
        | none => (s, some (msg.reply .reject { reason := some "too_expensive" }))
        | some price =>
          if price ≤ acceptable ∧ price ≤ budget then
            (s, some (msg.reply .accept
              { resource := some resource.to_dict, price := some price }))
          else if price ≤ budget then
            (s, some (msg.reply .counter
              { resource := some resource.to_dict
                price := some ((price + acceptable) / 2) }))
          else
            (s, some (msg.reply .reject { reason := some "too_expensive" }))
    | _ => (s, none)
  | .fair fairness_tolerance =>
    match msg.msg_type with
    | .request =>
      match msg.payload.resource with
      | none => (s, none)
      | some rd =>
        let requested := Resource.from_dict rd
        if resources.can_afford requested = false then
          (s, some (msg.reply .reject { reason := some "insufficient_resources" }))
        else
          let fair_price := price_per_unit requested
          let their_max := msg.payload.max_price.getD 0
          let offer_price := fair_price
          if offer_price * (1 - fairness_tolerance) ≤ their_max then
            (s, some (msg.reply .accept
              { resource := some requested.to_dict
                price := some (min offer_price their_max) }))
          else
            (s, some (msg.reply .counter
              { resource := some requested.to_dict, price := some offer_price }))
    | .offer | .counter =>
      match msg.payload.resource with
      | none => (s, none)
      | some rd =>
        let resource := Resource.from_dict rd
        let fair_price := price_per_unit resource
        match msg.payload.price with
        | none =>
          (s, some (msg.reply .reject { reason := some "cannot_afford" }))
        | some price =>
          if |price - fair_price| / max fair_price (1 / 100) ≤ fairness_tolerance
              ∧ price ≤ budget then
            (s, some (msg.reply .accept
              { resource := some resource.to_dict, price := some price }))
          else
            let split_price := (price + fair_price) / 2
            if split_price ≤ budget then
              (s, some (msg.reply .counter
                { resource := some resource.to_dict, price := some split_price }))
            else
              (s, some (msg.reply .reject { reason := some "cannot_afford" }))
    | _ => (s, none)
  | .patient patience rounds_waited =>
    match msg.msg_type with
    | .request =>
      match msg.payload.resource with
      | none => (s, none)
      | some rd =>
        let requested := Resource.from_dict rd
        if resources.can_afford requested = false then
          (s, some (msg.reply .reject { reason := some "insufficient_resources" }))
        else
          let premium := 1 + patience * (3 / 10)
          let our_price := price_per_unit requested * premium
          let their_max := msg.payload.max_price.getD 0
          if our_price ≤ their_max then
            (s, some (msg.reply .accept
              { resource := some requested.to_dict, price := some our_price }))
          else
            (s, some (msg.reply .counter
              { resource := some requested.to_dict, price := some our_price }))
    | .offer | .counter =>
      match msg.payload.resource with
      | none => (s, none)
      | some rd =>
        let resource := Resource.from_dict rd
        let target := price_per_unit resource * (1 - patience * (3 / 10))
        let waited := rounds_waited + 1
        let effective_target := target * (1 + (waited : ℚ) * (1 / 20))
        match msg.payload.price with
        | none =>
          (.patient patience waited,
           some (msg.reply .reject { reason := some "waiting_for_better" }))
        | some price =>
          if price ≤ effective_target ∧ price ≤ budget then
            (.patient patience 0,
             some (msg.reply .accept
               { resource := some resource.to_dict, price := some price }))
          else
            (.patient patience waited,
             some (msg.reply .reject { reason := some "waiting_for_better" }))
    | _ => (s, none)
  | .adaptive price_belief learning_rate history =>
    match msg.msg_type with
    | .request =>
      match msg.payload.resource with
      | none => (s, none)
      | some rd =>
        let requested := Resource.from_dict rd
        if resources.can_afford requested = false then
          (s, some (msg.reply .reject { reason := some "insufficient_resources" }))
        else
          let our_price := requested.total_units * price_belief
          let their_max := msg.payload.max_price.getD 0
          if our_price ≤ their_max then
            let deal_price := (our_price + their_max) / 2
            let bh := adaptiveUpdate price_belief learning_rate history
              deal_price requested.total_units
            (.adaptive bh.1 learning_rate bh.2,
             some (msg.reply .accept
               { resource := some requested.to_dict, price := some deal_price }))
          else
            (s, some (msg.reply .counter
              { resource := some requested.to_dict, price := some our_price }))
    | .offer | .counter =>
      match msg.payload.resource with
      | none => (s, none)
      | some rd =>
        let resource := Resource.from_dict rd
        let expected := resource.total_units * price_belief
        match msg.payload.price with
        | none =>
          if expected ≤ budget then
            (s, some (msg.reply .counter
              { resource := some resource.to_dict, price := some expected }))
          else
            (s, some (msg.reply .reject { reason := some "too_expensive" }))
        | some price =>
          if price ≤ expected * (23 / 20) ∧ price ≤ budget then
            let bh := adaptiveUpdate price_belief learning_rate history
              price resource.total_units
            (.adaptive bh.1 learning_rate bh.2,
             some (msg.reply .accept
               { resource := some resource.to_dict, price := some price }))
          else if expected ≤ budget then
            (s, some (msg.reply .counter
              { resource := some resource.to_dict, price := some expected }))
          else
            (s, some (msg.reply .reject { reason := some "too_expensive" }))
    | .accept =>
      let resource := Resource.from_dict (msg.payload.resource.getD {})
      let price := msg.payload.price.getD 0
      let bh := adaptiveUpdate price_belief learning_rate history
        price resource.total_units
      (.adaptive bh.1 learning_rate bh.2, none)
    | .reject =>
      (.adaptive (price_belief * (19 / 20)) learning_rate history, none)
    | _ => (s, none)
  | .broker commission_rate known_providers known_seekers =>
    match msg.msg_type with
    | .request =>
      match msg.payload.resource with
      | none => (s, none)
      | some rd =>
        let requested := Resource.from_dict rd
        let their_max := msg.payload.max_price.getD 0
        if resources.can_afford requested then
          let price := price_per_unit requested * (1 + commission_rate)
          if price ≤ their_max then
            (s, some (msg.reply .accept
              { resource := some requested.to_dict, price := some price
                broker := some agent_id }))
          else
            (s, some (msg.reply .counter
              { resource := some requested.to_dict, price := some price }))
        else
          let seekers :=
            if msg.sender_id ∈ known_seekers then known_seekers
            else known_seekers ++ [msg.sender_id]
          (.broker commission_rate known_providers seekers,
           some (msg.reply .reject { reason := some "no_resources_but_tracking" }))
    | .offer | .counter =>
      match msg.payload.resource with
      | none => (s, none)
      | some rd =>
        let resource := Resource.from_dict rd
        let fair := price_per_unit resource
        match msg.payload.price with
        | none =>
          (s, some (msg.reply .reject { reason := some "not_profitable" }))
        | some price =>
          if price ≤ fair ∧ price ≤ budget then
            let providers :=
              if msg.sender_id ∈ known_providers then known_providers
              else known_providers ++ [msg.sender_id]
            (.broker commission_rate providers known_seekers,
             some (msg.reply .accept
               { resource := some resource.to_dict, price := some price }))
          else
            (s, some (msg.reply .reject { reason := some "not_profitable" }))
    | _ => (s, none)
  | .cheater _ _ _ =>
    match msg.msg_type with
    | .request =>
      match msg.payload.resource with
      | none => (s, none)
      | some rd =>
        let requested := Resource.from_dict rd
        let their_max := msg.payload.max_price.getD 0
        let price := requested.total_units
        if price * (4 / 5) ≤ their_max then
          (s, some (msg.reply .accept
            { resource := some requested.to_dict
              price := some (min price their_max) }))
        else
          (s, some (msg.reply .reject { reason := some "not_enough" }))
    | .offer | .counter =>
      match msg.payload.resource with
      | none => (s, none)
      | some rd =>
        let resource := Resource.from_dict rd
        match msg.payload.price with
        | none =>
          (s, some (msg.reply .reject { reason := some "too_much" }))
        | some price =>
          if price ≤ resource.total_units * (13 / 10) then
            (s, some (msg.reply .accept
              { resource := some resource.to_dict, price := some price }))
          else
            (s, some (msg.reply .reject { reason := some "too_much" }))
    | _ => (s, none)

/-- `initiate(self, agent, target_id, need)` for every strategy variant:
build the opening message. No variant mutates its state here. -/
def Strategy.initiate (s : Strategy) (agent_id : String) (urgency : ℚ)
    (target_id : String) (need : Resource) : Message :=
  match s with
  | .greedy greed_factor =>
    { msg_type := .request, sender_id := agent_id, receiver_id := target_id
      payload := { resource := some need.to_dict
                   max_price := some (price_per_unit need * greed_factor)
                   urgency := some urgency } }
  | .fair fairness_tolerance =>
    { msg_type := .request, sender_id := agent_id, receiver_id := target_id
      payload := { resource := some need.to_dict
                   max_price := some (price_per_unit need * (1 + fairness_tolerance))
                   urgency := some urgency } }
  | .patient patience _ =>
    let discount := patience * (2 / 5)
    { msg_type := .request, sender_id := agent_id, receiver_id := target_id
      payload := { resource := some need.to_dict
                   max_price := some (price_per_unit need * (1 - discount))
                   urgency := some urgency } }
  | .adaptive price_belief _ _ =>
    let price := need.total_units * price_belief
    { msg_type := .request, sender_id := agent_id, receiver_id := target_id
      payload := { resource := some need.to_dict
                   max_price := some (price * (11 / 10))
                   urgency := some urgency } }
  | .broker _ _ _ =>
    { msg_type := .query_reputation, sender_id := agent_id
      receiver_id := target_id
      payload := { query := some "available_resources" } }
  | .cheater _ _ _ =>
    let price := need.total_units
    { msg_type := .request, sender_id := agent_id, receiver_id := target_id
      payload := { resource := some need.to_dict
                   max_price := some (price * (6 / 5))
                   urgency := some (9 / 10) } }

/-- `agents/agent.py` `Agent` (the unused `_active_negotiations` scratch
dict is omitted). -/
structure Agent where
  agent_id : String
  resources : Resource
  budget : ℚ
  strategy : Option Strategy := none
  urgency : ℚ := 1 / 2
  pending_needs : Resource := {}
  deals : List Deal := []
  reputation_table : List (String × ℚ) := []
  message_log : List Message := []
deriving DecidableEq, Repr

/-- `Agent.reputation_of`: stored score, defaulting to 0.5 for unseen
peers. -/
def Agent.reputation_of (a : Agent) (other_id : String) : ℚ :=
  (lookupKey a.reputation_table other_id).getD (1 / 2)

/-- `Agent.update_reputation`: add the delta and clamp to [0, 1]. -/
def Agent.update_reputation (a : Agent) (other_id : String) (delta : ℚ) : Agent :=
  let clamped := max 0 (min 1 (a.reputation_of other_id + delta))
  { a with reputation_table := setKey a.reputation_table other_id clamped }

/-- `Agent.record_deal`: append the deal, then apply the +0.1 / -0.3
reputation delta depending on fulfillment. -/
def Agent.record_deal (a : Agent) (d : Deal) : Agent :=
  let a1 := { a with deals := a.deals ++ [d] }
  a1.update_reputation d.partner_id (if d.fulfilled then 1 / 10 else -(3 / 10))

/-- `Agent.receive`: append to the message log; with no strategy return no
reply, otherwise delegate to the strategy's `decide`. -/
def Agent.receive (a : Agent) (m : Message) : Agent × Option Message :=
  let a1 := { a with message_log := a.message_log ++ [m] }
  match a1.strategy with
  | none => (a1, none)
  | some s =>
    let sr := s.decide a1.agent_id a1.resources a1.budget m
    ({ a1 with strategy := some sr.1 }, sr.2)

/-- `Agent.initiate_negotiation`: raise `RuntimeError` when no strategy is
assigned, otherwise delegate to the strategy's `initiate`. -/
def Agent.initiate_negotiation (a : Agent) (target_id : String)
    (need : Resource) : Except String Message :=
  match a.strategy with
  | none => .error ("Agent " ++ a.agent_id ++ " has no strategy")
  | some s => .ok (s.initiate a.agent_id a.urgency target_id need)

/-- `Agent.net_worth`: budget plus total resource units. -/
def Agent.net_worth (a : Agent) : ℚ :=
  a.budget + a.resources.total_units

/-- `agents/simulator.py` `NegotiationResult`. -/
structure NegotiationResult where
  buyer_id : String
  seller_id : String
  resource : Option Resource
  price : ℚ
  agreed : Bool
  rounds : ℕ
  messages : List Message
deriving DecidableEq, Repr

/-- The `while turns < self.max_turns` loop of `Simulator._negotiate`,
generic over the two parties' message-handling functions (the engine only
ever calls `receive` on them). `fuel` is `max_turns - turns`; `turns` and
the message trail `msgs` are the loop's accumulated state, with `s`/`b` the
seller/buyer states and `current_msg` the message the seller answers
next. -/
def negoLoop {σ β : Type} (recvS : σ → Message → σ × Option Message)
    (recvB : β → Message → β × Option Message)
    (buyer_id seller_id : String) (need : Resource) :
    ℕ → ℕ → σ → β → Message → List Message → σ × β × NegotiationResult
  | 0, turns, s, b, _, msgs =>
    (s, b, ⟨buyer_id, seller_id, none, 0, false, turns, msgs⟩)
  | fuel + 1, turns, s, b, current_msg, msgs =>
    match recvS s current_msg with
    | (s1, none) => (s1, b, ⟨buyer_id, seller_id, none, 0, false, turns, msgs⟩)
    | (s1, some response) =>
      let msgs1 := msgs ++ [response]
      if response.msg_type = .accept then
        (s1, b, ⟨buyer_id, seller_id,
          some (Resource.from_dict (response.payload.resource.getD need.to_dict)),
          response.payload.price.getD 0, true, turns + 1, msgs1⟩)
      else if response.msg_type = .reject then
        (s1, b, ⟨buyer_id, seller_id, none, 0, false, turns + 1, msgs1⟩)
      else
        match recvB b response with
        | (b1, none) =>
          (s1, b1, ⟨buyer_id, seller_id, none, 0, false, turns, msgs1⟩)
        | (b1, some buyer_response) =>
          let msgs2 := msgs1 ++ [buyer_response]
          if buyer_response.msg_type = .accept then
            (s1, b1, ⟨buyer_id, seller_id,
              some (Resource.from_dict
                (buyer_response.payload.resource.getD need.to_dict)),
              buyer_response.payload.price.getD 0, true, turns + 1, msgs2⟩)
          else if buyer_response.msg_type = .reject then
            (s1, b1, ⟨buyer_id, seller_id, none, 0, false, turns + 1, msgs2⟩)
          else
            negoLoop recvS recvB buyer_id seller_id need fuel (turns + 1)
              s1 b1 buyer_response msgs2

/-- `Simulator._negotiate` after the opening message has been produced:
run the loop with the buyer's opening REQUEST as the first message of the
trail, returning (buyer, seller, result). -/
def negotiateFrom (max_turns : ℕ) (buyer seller : Agent) (opening : Message)
    (need : Resource) : Agent × Agent × NegotiationResult :=
  let out := negoLoop Agent.receive Agent.receive buyer.agent_id
    seller.agent_id need max_turns 0 seller buyer opening [opening]
  (out.2.1, out.1, out.2.2)

namespace Simulator

/-- `Simulator._negotiate`: the buyer opens (which raises if the buyer has
no strategy, propagated as `Except.error`), then the bounded
alternating-turn loop runs. -/
def negotiate (max_turns : ℕ) (buyer seller : Agent) (need : Resource) :
    Except String (Agent × Agent × NegotiationResult) :=
  match buyer.initiate_negotiation seller.agent_id need with
  | .error e => .error e
  | .ok opening => .ok (negotiateFrom max_turns buyer seller opening need)

/-- `Simulator._execute_deal`: settle an agreed result against the two
agents' ledgers, or mark it as a default. Returns the updated buyer,
seller, and result. -/
def execute_deal (round_num : ℕ) (buyer seller : Agent)
    (result : NegotiationResult) : Agent × Agent × NegotiationResult :=
  match result.resource, result.agreed with
  | some res, true =>
    if seller.resources.can_afford res = true ∧ result.price ≤ buyer.budget then
      let seller1 := { seller with resources := seller.resources - res }
      let buyer1 := { buyer with resources := buyer.resources + res }
      let buyer2 := { buyer1 with budget := buyer1.budget - result.price }
      let seller2 := { seller1 with budget := seller1.budget + result.price }
      let buyer3 := buyer2.record_deal
        ⟨seller.agent_id, res, result.price, round_num, true⟩
      let seller3 := seller2.record_deal
        ⟨buyer.agent_id, res, result.price, round_num, true⟩
      (buyer3, seller3, result)
    else
      let buyer1 := buyer.record_deal
        ⟨seller.agent_id, res, result.price, round_num, false⟩
      (buyer1, seller, { result with agreed := false })
  | _, _ => (buyer, seller, result)

end Simulator

/-- `experiments/exp3_trust.py` `TrustSimulator.default_log` entry. -/
structure DefaultEntry where
  round : ℕ
  cheater : String
  victim : String
  resource : ℚ
  price : ℚ
deriving DecidableEq, Repr

namespace TrustSimulator

/-- `TrustSimulator._execute_deal`: deal execution with a fulfillment
phase. `rand` is the `random.random()` draw (a value in [0, 1)); a marked
cheater whose strategy carries a `cheat_probability` defaults whenever
`rand < cheat_probability`. Returns the updated buyer, seller, result and
default log. -/
def execute_deal (round_num : ℕ) (cheater_ids : List String) (rand : ℚ)
    (buyer seller : Agent) (result : NegotiationResult)
    (default_log : List DefaultEntry) :
    Agent × Agent × NegotiationResult × List DefaultEntry :=
  match result.resource, result.agreed with
  | some res, true =>
    if seller.agent_id ∈ cheater_ids then
      match seller.strategy with
      | some (.cheater p acc chtd) =>
        if rand < p then
          let entry : DefaultEntry :=
            ⟨round_num, seller.agent_id, buyer.agent_id,
             res.total_units, result.price⟩
          let buyer1 := { buyer with budget := buyer.budget - result.price }
          let seller0 := { seller with budget := seller.budget + result.price }
          let seller1 := { seller0 with strategy := some (.cheater p (acc + 1) (chtd + 1)) }
          let buyer2 := buyer1.record_deal
            ⟨seller.agent_id, res, result.price, round_num, false⟩
          let seller2 := seller1.record_deal
            ⟨buyer.agent_id, res, result.price, round_num, true⟩
          (buyer2, seller2, result, default_log ++ [entry])
        else
          let seller1 := { seller with strategy := some (.cheater p (acc + 1) chtd) }
          let out := Simulator.execute_deal round_num buyer seller1 result
          (out.1, out.2.1, out.2.2, default_log)
      | _ =>
        let out := Simulator.execute_deal round_num buyer seller result
        (out.1, out.2.1, out.2.2, default_log)
    else if buyer.agent_id ∈ cheater_ids then
      match buyer.strategy with
      | some (.cheater p acc chtd) =>
        if rand < p then
          let entry : DefaultEntry :=
            ⟨round_num, buyer.agent_id, seller.agent_id,
             res.total_units, result.price⟩
          let seller1 := { seller with resources := seller.resources - res }
          let buyer0 := { buyer with resources := buyer.resources + res }
          let buyer1 := { buyer0 with strategy := some (.cheater p (acc + 1) (chtd + 1)) }
          let seller2 := seller1.record_deal
            ⟨buyer.agent_id, res, result.price, round_num, false⟩
          let buyer2 := buyer1.record_deal
            ⟨seller.agent_id, res, result.price, round_num, true⟩
          (buyer2, seller2, result, default_log ++ [entry])
        else
          let buyer1 := { buyer with strategy := some (.cheater p (acc + 1) chtd) }
          let out := Simulator.execute_deal round_num buyer1 seller result
          (out.1, out.2.1, out.2.2, default_log)
      | _ =>
        let out := Simulator.execute_deal round_num buyer seller result
        (out.1, out.2.1, out.2.2, default_log)
    else
      let out := Simulator.execute_deal round_num buyer seller result
      (out.1, out.2.1, out.2.2, default_log)
  | _, _ => (buyer, seller, result, default_log)

end TrustSimulator

/-- A sequence of `TrustSimulator._execute_deal` calls on the same
buyer/seller pair: each event carries its random draw and its negotiation
result. -/
def iterateDeals (round_num : ℕ) (cheater_ids : List String) :
    List (ℚ × NegotiationResult) → Agent × Agent × List DefaultEntry →
    Agent × Agent × List DefaultEntry
  | [], st => st
  | e :: rest, (b, s, log) =>
    let out := TrustSimulator.execute_deal round_num cheater_ids e.1 b s e.2 log
    iterateDeals round_num cheater_ids rest (out.1, out.2.1, out.2.2.2)

/-- Victim-side reputation of the cheater after `k` consecutive `-0.3`
defaults applied from the neutral 0.5 baseline. -/
def repAfter (k : ℕ) : ℚ :=
  max 0 (1 / 2 - (3 / 10) * k)

/-- One reputation-affecting operation on an agent: a raw
`update_reputation` call or a `record_deal` call. -/
inductive RepOp where
  | upd (other_id : String) (delta : ℚ)
  | record (d : Deal)

/-- Apply one reputation-affecting operation. -/
def applyRepOp (a : Agent) : RepOp → Agent
  | .upd other_id delta => a.update_reputation other_id delta
  | .record d => a.record_deal d

/-- Every stored reputation score lies in [0, 1]. -/
def boundsOk (t : List (String × ℚ)) : Bool :=
  t.all fun kv => decide (0 ≤ kv.2) && decide (kv.2 ≤ 1)

/-! Concrete instances used by witnesses and counterexamples. -/

/-- A strategyless agent (configuration-error scenarios). -/
def agentW4 : Agent := { agent_id := "lonely", resources := {}, budget := 0 }

/-- A message sent to the strategyless agent. -/
def msgW4 : Message := { msg_type := .request, sender_id := "x", receiver_id := "lonely" }

/-- A victim agent with an empty reputation table. -/
def agentW6 : Agent := { agent_id := "victim", resources := {}, budget := 0 }

/-- A mixed sequence of reputation operations. -/
def opsW6 : List RepOp :=
  [RepOp.upd "m" 5, RepOp.record ⟨"m", {}, 1, 0, false⟩, RepOp.upd "n" (-(7 : ℚ))]

/-- Fair-strategy buyer from the spec §8 Fair-vs-Fair scenario. -/
def bW : Agent :=
  { agent_id := "buyer_w", resources := { gpu_hours := 5 }, budget := 100
    strategy := some (.fair (3 / 20)), urgency := 3 / 10 }

/-- Fair-strategy seller with sufficient stock. -/
def sW : Agent :=
  { agent_id := "seller_w", resources := { gpu_hours := 100 }, budget := 50
    strategy := some (.fair (3 / 20)), urgency := 1 / 5 }

/-- A need with 10 total units. -/
def needW : Resource := { gpu_hours := 10 }

/-- The Fair buyer's opening message for `needW`. -/
def openW : Message :=
  (Strategy.fair (3 / 20)).initiate "buyer_w" (3 / 10) "seller_w" needW

/-- Greedy buyer whose negotiations never close (endless counters). -/
def bG : Agent :=
  { agent_id := "gb", resources := {}, budget := 100
    strategy := some (.greedy (7 / 10)) }

/-- Greedy seller whose negotiations never close. -/
def sG : Agent :=
  { agent_id := "gs", resources := { gpu_hours := 100 }, budget := 100
    strategy := some (.greedy (7 / 10)) }

/-- The Greedy buyer's opening message for `needW`. -/
def openG : Message :=
  (Strategy.greedy (7 / 10)).initiate "gb" (1 / 2) "gs" needW

/-- A REQUEST for 10 gpu-hours, addressed to a seller holding only 2. -/
def reqC3 : Message :=
  { msg_type := .request, sender_id := "seeker", receiver_id := "brk"
    payload := { resource := some { gpu_hours := some 10 }
                 max_price := some 7, urgency := some (1 / 2) } }

/-- Buyer for the settlement witnesses. -/
def buyerC1 : Agent := { agent_id := "buy1", resources := {}, budget := 20 }

/-- Seller for the settlement witnesses. -/
def sellerC1 : Agent :=
  { agent_id := "sell1", resources := { gpu_hours := 5 }, budget := 3 }

/-- An agreed negotiation result over 3 gpu-hours at price 4. -/
def resultC1 : NegotiationResult :=
  { buyer_id := "buy1", seller_id := "sell1"
    resource := some { gpu_hours := 3 }, price := 4, agreed := true
    rounds := 1, messages := [] }

/-- Cheating seller (always-cheat configuration) for the trust witnesses. -/
def sellerC8 : Agent :=
  { agent_id := "mallory", resources := { gpu_hours := 100 }, budget := 50
    strategy := some (.cheater 1 0 0) }

/-- Victim buyer for the trust witnesses. -/
def buyerC8 : Agent := { agent_id := "vic", resources := {}, budget := 100 }

/-- An agreed result between `buyerC8` and `sellerC8`. -/
def resultC8 : NegotiationResult :=
  { buyer_id := "vic", seller_id := "mallory"
    resource := some { gpu_hours := 5 }, price := 5, agreed := true
    rounds := 1, messages := [] }

/-- Two agreed-deal events with in-range random draws. -/
def eventsC8 : List (ℚ × NegotiationResult) :=
  [(1 / 2, resultC8), (0, resultC8)]

/-! Helper lemmas. -/

theorem Resource.add_def (a b : Resource) : a + b = Resource.add a b := rfl

theorem Resource.sub_def (a b : Resource) : a - b = Resource.sub a b := rfl

theorem Resource.add_add_sub (a b c : Resource) : a + c + (b - c) = a + b := by
  cases a; cases b; cases c
  simp only [Resource.add_def, Resource.sub_def, Resource.add, Resource.sub,
    Resource.mk.injEq]
  refine ⟨by ring, by ring, by ring⟩

theorem Resource.zero_add' (a : Resource) : ({} : Resource) + a = a := by
  cases a
  simp [Resource.add_def, Resource.add]

theorem Resource.add_zero' (a : Resource) : a + ({} : Resource) = a := by
  cases a
  simp [Resource.add_def, Resource.add]

theorem Resource.add_assoc' (a b c : Resource) : a + b + c = a + (b + c) := by
  cases a; cases b; cases c
  simp only [Resource.add_def, Resource.add, Resource.mk.injEq]
  refine ⟨by ring, by ring, by ring⟩

theorem Resource.add_right_comm' (a b c : Resource) : a + b + c = a + c + b := by
  cases a; cases b; cases c
  simp only [Resource.add_def, Resource.add, Resource.mk.injEq]
  refine ⟨by ring, by ring, by ring⟩

@[simp] theorem Resource.add_gpu (a b : Resource) :
    (a + b).gpu_hours = a.gpu_hours + b.gpu_hours := rfl

@[simp] theorem Resource.add_cpu (a b : Resource) :
    (a + b).cpu_hours = a.cpu_hours + b.cpu_hours := rfl

@[simp] theorem Resource.add_mem (a b : Resource) :
    (a + b).memory_gb_hours = a.memory_gb_hours + b.memory_gb_hours := rfl

@[simp] theorem Resource.sub_gpu (a b : Resource) :
    (a - b).gpu_hours = a.gpu_hours - b.gpu_hours := rfl

@[simp] theorem Resource.sub_cpu (a b : Resource) :
    (a - b).cpu_hours = a.cpu_hours - b.cpu_hours := rfl

@[simp] theorem Resource.sub_mem (a b : Resource) :
    (a - b).memory_gb_hours = a.memory_gb_hours - b.memory_gb_hours := rfl

theorem Resource.can_afford_iff (self cost : Resource) :
    self.can_afford cost = true ↔
      cost.gpu_hours ≤ self.gpu_hours ∧ cost.cpu_hours ≤ self.cpu_hours ∧
        cost.memory_gb_hours ≤ self.memory_gb_hours := by
  simp [Resource.can_afford, and_assoc]

/-- Claim C9: for all resource vectors `a` and `b`, `(a + b) - b = a`
componentwise (Resource addition and subtraction, exact arithmetic). -/
theorem resource_add_sub_cancel (a b : Resource) : a + b - b = a := by
  cases a; cases b
  simp only [Resource.add_def, Resource.sub_def, Resource.add, Resource.sub,
    Resource.mk.injEq]
  refine ⟨by ring, by ring, by ring⟩

/-- Claim C4 counterexample: on an agent with no strategy, `receive`
returns normally — it logs the message and replies `none` — while only
`initiate_negotiation` fails with the configuration error; so it is false
that both calls fail rather than returning a value. -/
theorem receive_without_strategy_cex :
    agentW4.receive msgW4 = ({ agentW4 with message_log := [msgW4] }, none) ∧
    agentW4.initiate_negotiation "tgt" {} =
      Except.error "Agent lonely has no strategy" := by
  constructor <;> rfl

/-- Claim C4 (amended): on an agent with no assigned strategy,
`initiate_negotiation` fails immediately with a runtime configuration
error, while `receive` does not fail: it appends the message to the log
and returns no reply. -/
theorem no_strategy_behavior (a : Agent) (target_id : String) (need : Resource)
    (m : Message) (h : a.strategy = none) :
    a.initiate_negotiation target_id need =
      Except.error ("Agent " ++ a.agent_id ++ " has no strategy") ∧
    a.receive m = ({ a with message_log := a.message_log ++ [m] }, none) := by
  constructor
  · simp [Agent.initiate_negotiation, h]
  · simp [Agent.receive, h]

/-- Witness for C4's amended claim at a concrete strategyless agent. -/
theorem no_strategy_behavior_w :
    agentW4.initiate_negotiation "tgt" ({} : Resource) =
      Except.error ("Agent " ++ agentW4.agent_id ++ " has no strategy") ∧
    agentW4.receive msgW4 =
      ({ agentW4 with message_log := agentW4.message_log ++ [msgW4] }, none) :=
  no_strategy_behavior agentW4 "tgt" {} msgW4 rfl

theorem lookupKey_setKey_same {α : Type} (l : List (String × α)) (k : String)
    (v : α) : lookupKey (setKey l k v) k = some v := by
  induction l with
  | nil => simp [setKey, lookupKey]
  | cons kv rest ih =>
    by_cases h : kv.1 = k
    · simp [setKey, h, lookupKey]
    · cases kv
      simp_all [setKey, lookupKey]

theorem mem_setKey {α : Type} (l : List (String × α)) (k : String) (v : α) :
    ∀ kv ∈ setKey l k v, kv ∈ l ∨ kv.2 = v := by
  induction l with
  | nil => simp [setKey]
  | cons hd rest ih =>
    intro kv hkv
    by_cases h : hd.1 = k
    · cases hd
      simp only [setKey] at hkv
      rw [if_pos h] at hkv
      rcases List.mem_cons.mp hkv with h1 | h1
      · right; rw [h1]
      · left; exact List.mem_cons_of_mem _ h1
    · cases hd
      simp only [setKey] at hkv
      rw [if_neg h] at hkv
      rcases List.mem_cons.mp hkv with h1 | h1
      · left; exact h1 ▸ List.mem_cons_self _ _
      · rcases ih kv h1 with h2 | h2
        · left; exact List.mem_cons_of_mem _ h2
        · right; exact h2

theorem boundsOk_iff (t : List (String × ℚ)) :
    boundsOk t = true ↔ ∀ kv ∈ t, 0 ≤ kv.2 ∧ kv.2 ≤ 1 := by
  simp [boundsOk, List.all_eq_true]

theorem boundsOk_update_reputation (a : Agent) (pid : String) (delta : ℚ)
    (h : boundsOk a.reputation_table = true) :
    boundsOk (a.update_reputation pid delta).reputation_table = true := by
  rw [boundsOk_iff] at h ⊢
  intro kv hkv
  rcases mem_setKey _ _ _ kv hkv with h1 | h1
  · exact h kv h1
  · rw [h1]
    constructor
    · exact le_max_left 0 _
    · exact max_le (by norm_num) (min_le_left 1 _)

theorem boundsOk_record_deal (a : Agent) (d : Deal)
    (h : boundsOk a.reputation_table = true) :
    boundsOk (a.record_deal d).reputation_table = true :=
  boundsOk_update_reputation _ d.partner_id _ h

/-- Claim C6: `reputation_of` on a never-updated peer returns exactly 0.5,
and any finite sequence of `update_reputation` / `record_deal` calls with
arbitrary deltas keeps every stored reputation score within [0, 1]. -/
theorem reputation_default_and_bounds :
    (∀ (a : Agent) (pid : String),
        lookupKey a.reputation_table pid = none → a.reputation_of pid = 1 / 2) ∧
    (∀ (a : Agent) (ops : List RepOp), boundsOk a.reputation_table = true →
        boundsOk ((ops.foldl applyRepOp a).reputation_table) = true) := by
  constructor
  · intro a pid h
    simp [Agent.reputation_of, h]
  · intro a ops
    induction ops generalizing a with
    | nil => intro h; simpa using h
    | cons op rest ih =>
      intro h
      rw [List.foldl_cons]
      apply ih
      cases op with
      | upd pid delta => exact boundsOk_update_reputation a pid delta h
      | record d => exact boundsOk_record_deal a d h

/-- Witness for C6 at a concrete agent and operation sequence. -/
theorem reputation_default_and_bounds_w :
    agentW6.reputation_of "never" = 1 / 2 ∧
    boundsOk ((opsW6.foldl applyRepOp agentW6).reputation_table) = true :=
  ⟨reputation_default_and_bounds.1 agentW6 "never" rfl,
   reputation_default_and_bounds.2 agentW6 opsW6 rfl⟩

theorem sumAlloc_nil : sumAlloc ([] : List (String × Resource)) = {} := rfl

theorem sumAlloc_cons (kv : String × Resource) (l : List (String × Resource)) :
    sumAlloc (kv :: l) = kv.2 + sumAlloc l := rfl

theorem foldl_add_resource (l : List (String × Resource)) :
    ∀ acc : Resource, l.foldl (fun a kv => a + kv.2) acc = acc + sumAlloc l := by
  induction l with
  | nil => intro acc; simp [sumAlloc_nil, Resource.add_zero']
  | cons kv rest ih =>
    intro acc
    rw [List.foldl_cons, ih, sumAlloc_cons, Resource.add_assoc']

theorem usedOf_eq_sumAlloc (l : List (String × Resource)) :
    usedOf l = sumAlloc l := by
  rw [usedOf, foldl_add_resource, Resource.zero_add']

theorem sumAlloc_setKey_add (l : List (String × Resource)) (k : String)
    (amt : Resource) :
    sumAlloc (setKey l k (((lookupKey l k).getD {}) + amt)) = sumAlloc l + amt := by
  induction l with
  | nil =>
    simp [setKey, lookupKey, sumAlloc_cons, sumAlloc_nil, Resource.zero_add',
      Resource.add_zero']
  | cons kv rest ih =>
    by_cases h : kv.1 = k
    · cases kv
      simp only [setKey, lookupKey] at *
      rw [if_pos h, if_pos h]
      simp only [Option.getD_some, sumAlloc_cons]
      rw [Resource.add_right_comm' _ amt (sumAlloc rest), Resource.add_assoc']
    · cases kv
      simp only [setKey, lookupKey] at *
      rw [if_neg h, if_neg h]
      simp only [sumAlloc_cons]
      rw [ih, Resource.add_assoc']

theorem runAllocs_total (calls : List (String × Resource)) :
    ∀ p : ResourcePool, (runAllocs p calls).total = p.total := by
  induction calls with
  | nil => intro p; rfl
  | cons c rest ih =>
    intro p
    simp only [runAllocs, List.foldl_cons] at ih ⊢
    rw [ih]
    unfold ResourcePool.allocate
    split <;> rfl

theorem runAllocs_can_afford (calls : List (String × Resource)) :
    ∀ p : ResourcePool,
      p.total.can_afford (sumAlloc p.allocated) = true →
      (runAllocs p calls).total.can_afford
        (sumAlloc (runAllocs p calls).allocated) = true := by
  induction calls with
  | nil => intro p h; exact h
  | cons c rest ih =>
    intro p h
    simp only [runAllocs, List.foldl_cons] at ih ⊢
    apply ih
    unfold ResourcePool.allocate
    by_cases hc : p.available.can_afford c.2 = true
    · rw [if_pos hc]
      simp only [sumAlloc_setKey_add]
      rw [ResourcePool.available, usedOf_eq_sumAlloc] at hc
      rw [Resource.can_afford_iff] at hc ⊢
      simp only [Resource.add_gpu, Resource.add_cpu, Resource.add_mem,
        Resource.sub_gpu, Resource.sub_cpu, Resource.sub_mem] at hc ⊢
      exact ⟨by linarith [hc.1], by linarith [hc.2.1], by linarith [hc.2.2]⟩
    · rw [if_neg hc]
      exact h

/-- Claim C5: `allocate` fails with no mutation when `available` cannot
afford the amount, and otherwise adds the amount to that agent's
allocation and succeeds; consequently, starting from an empty allocation
of a componentwise-nonnegative total, any sequence of `allocate` calls
keeps the componentwise allocated sum within the total capacity, and
`available` always equals `total` minus the allocated sum. -/
theorem pool_alloc_sound :
    (∀ (p : ResourcePool) (aid : String) (amt : Resource),
        p.available.can_afford amt = false → p.allocate aid amt = (false, p)) ∧
    (∀ (p : ResourcePool) (aid : String) (amt : Resource),
        p.available.can_afford amt = true →
        (p.allocate aid amt).1 = true ∧
        (p.allocate aid amt).2.total = p.total ∧
        (p.allocate aid amt).2.allocated =
          setKey p.allocated aid (((lookupKey p.allocated aid).getD {}) + amt)) ∧
    (∀ p : ResourcePool, p.available = p.total - sumAlloc p.allocated) ∧
    (∀ (total : Resource) (calls : List (String × Resource)),
        total.can_afford {} = true →
        total.can_afford
          (sumAlloc (runAllocs ⟨total, []⟩ calls).allocated) = true) := by
  refine ⟨?_, ?_, ?_, ?_⟩
  · intro p aid amt h
    unfold ResourcePool.allocate
    rw [h]
    rfl
  · intro p aid amt h
    unfold ResourcePool.allocate
    rw [h]
    exact ⟨rfl, rfl, rfl⟩
  · intro p
    rw [ResourcePool.available, usedOf_eq_sumAlloc]
  · intro total calls h
    have h0 : (⟨total, []⟩ : ResourcePool).total.can_afford
        (sumAlloc (⟨total, []⟩ : ResourcePool).allocated) = true := h
    have := runAllocs_can_afford calls ⟨total, []⟩ h0
    rwa [runAllocs_total] at this

/-- Witness for C5: a failing allocate is a no-op, and a concrete call
sequence with one failing call keeps the allocated sum within capacity. -/
theorem pool_alloc_sound_w :
    ResourcePool.allocate ⟨{ gpu_hours := 4 }, []⟩ "a" { gpu_hours := 5 } =
      (false, ⟨{ gpu_hours := 4 }, []⟩) ∧
    Resource.can_afford { gpu_hours := 4 }
      (sumAlloc (runAllocs ⟨{ gpu_hours := 4 }, []⟩
        [("a", { gpu_hours := 3 }), ("b", { gpu_hours := 2 })]).allocated) = true :=
  ⟨pool_alloc_sound.1 ⟨{ gpu_hours := 4 }, []⟩ "a" { gpu_hours := 5 }
     (by norm_num [ResourcePool.available, usedOf, Resource.can_afford,
       Resource.sub_def, Resource.sub]),
   pool_alloc_sound.2.2.2 { gpu_hours := 4 }
     [("a", { gpu_hours := 3 }), ("b", { gpu_hours := 2 })]
     (by norm_num [Resource.can_afford])⟩

@[simp] theorem record_deal_budget (a : Agent) (d : Deal) :
    (a.record_deal d).budget = a.budget := rfl

@[simp] theorem record_deal_resources (a : Agent) (d : Deal) :
    (a.record_deal d).resources = a.resources := rfl

@[simp] theorem record_deal_agent_id (a : Agent) (d : Deal) :
    (a.record_deal d).agent_id = a.agent_id := rfl

@[simp] theorem record_deal_strategy (a : Agent) (d : Deal) :
    (a.record_deal d).strategy = a.strategy := rfl

@[simp] theorem record_deal_urgency (a : Agent) (d : Deal) :
    (a.record_deal d).urgency = a.urgency := rfl

@[simp] theorem record_deal_pending_needs (a : Agent) (d : Deal) :
    (a.record_deal d).pending_needs = a.pending_needs := rfl

@[simp] theorem record_deal_message_log (a : Agent) (d : Deal) :
    (a.record_deal d).message_log = a.message_log := rfl

@[simp] theorem record_deal_deals (a : Agent) (d : Deal) :
    (a.record_deal d).deals = a.deals ++ [d] := rfl

/-- Claim C1: settling an agreed result either passes both checks (seller
can afford the resource, buyer's budget covers the price) and preserves
the pairwise budget and componentwise resource totals, or fails a check
and leaves both parties' budgets and resource holdings completely
unchanged — flipping only the result's agreed flag and appending to the
buyer's deal history / reputation table. -/
theorem execute_deal_conserves (round_num : ℕ) (buyer seller : Agent)
    (result : NegotiationResult) (res : Resource)
    (hagree : result.agreed = true) (hres : result.resource = some res) :
    ((seller.resources.can_afford res = true ∧ result.price ≤ buyer.budget) →
      (Simulator.execute_deal round_num buyer seller result).1.budget +
          (Simulator.execute_deal round_num buyer seller result).2.1.budget =
        buyer.budget + seller.budget ∧
      (Simulator.execute_deal round_num buyer seller result).1.resources +
          (Simulator.execute_deal round_num buyer seller result).2.1.resources =
        buyer.resources + seller.resources) ∧
    (¬(seller.resources.can_afford res = true ∧ result.price ≤ buyer.budget) →
      (Simulator.execute_deal round_num buyer seller result).1.budget = buyer.budget ∧
      (Simulator.execute_deal round_num buyer seller result).1.resources = buyer.resources ∧
      (Simulator.execute_deal round_num buyer seller result).1.agent_id = buyer.agent_id ∧
      (Simulator.execute_deal round_num buyer seller result).1.strategy = buyer.strategy ∧
      (Simulator.execute_deal round_num buyer seller result).1.urgency = buyer.urgency ∧
      (Simulator.execute_deal round_num buyer seller result).1.message_log = buyer.message_log ∧
      (Simulator.execute_deal round_num buyer seller result).2.1 = seller ∧
      (Simulator.execute_deal round_num buyer seller result).2.2.agreed = false) := by
  obtain ⟨bid, sid, ropt, price, agr, rnds, msgs⟩ := result
  obtain rfl : ropt = some res := hres
  obtain rfl : agr = true := hagree
  simp only [Simulator.execute_deal]
  constructor
  · intro hok
    rw [if_pos hok]
    refine ⟨by simp, ?_⟩
    simp only [record_deal_resources]
    exact Resource.add_add_sub buyer.resources seller.resources res
  · intro hbad
    rw [if_neg hbad]
    simp

/-- Witness for C1 at a concrete passing settlement. -/
theorem execute_deal_conserves_w :
    (Simulator.execute_deal 1 buyerC1 sellerC1 resultC1).1.budget +
        (Simulator.execute_deal 1 buyerC1 sellerC1 resultC1).2.1.budget =
      buyerC1.budget + sellerC1.budget ∧
    (Simulator.execute_deal 1 buyerC1 sellerC1 resultC1).1.resources +
        (Simulator.execute_deal 1 buyerC1 sellerC1 resultC1).2.1.resources =
      buyerC1.resources + sellerC1.resources :=
  (execute_deal_conserves 1 buyerC1 sellerC1 resultC1 { gpu_hours := 3 } rfl rfl).1
    (by constructor
        · norm_num [sellerC1, Resource.can_afford]
        · norm_num [resultC1, buyerC1])

/-- Claim C10: in the TrustSimulator's cheating branch, pairwise
conservation still holds. When the seller cheats only currency moves (the
buyer pays the price, the seller collects it, neither side's resources
change); when the buyer cheats only resources move (transferred from
seller to buyer, neither budget changes). In both cases the budget total
and the componentwise resource total of the two parties are unchanged. -/
theorem trust_cheat_conserves (round_num : ℕ) (cheater_ids : List String)
    (rand : ℚ) (buyer seller : Agent) (result : NegotiationResult)
    (res : Resource) (log : List DefaultEntry) (p : ℚ) (acc chtd : ℕ)
    (hagree : result.agreed = true) (hres : result.resource = some res) :
    ((seller.agent_id ∈ cheater_ids ∧ seller.strategy = some (.cheater p acc chtd) ∧
        rand < p) →
      (TrustSimulator.execute_deal round_num cheater_ids rand buyer seller result log).1.budget =
        buyer.budget - result.price ∧
      (TrustSimulator.execute_deal round_num cheater_ids rand buyer seller result log).2.1.budget =
        seller.budget + result.price ∧
      (TrustSimulator.execute_deal round_num cheater_ids rand buyer seller result log).1.resources =
        buyer.resources ∧
      (TrustSimulator.execute_deal round_num cheater_ids rand buyer seller result log).2.1.resources =
        seller.resources ∧
      (TrustSimulator.execute_deal round_num cheater_ids rand buyer seller result log).1.budget +
          (TrustSimulator.execute_deal round_num cheater_ids rand buyer seller result log).2.1.budget =
        buyer.budget + seller.budget ∧
      (TrustSimulator.execute_deal round_num cheater_ids rand buyer seller result log).1.resources +
          (TrustSimulator.execute_deal round_num cheater_ids rand buyer seller result log).2.1.resources =
        buyer.resources + seller.resources) ∧
    ((seller.agent_id ∉ cheater_ids ∧ buyer.agent_id ∈ cheater_ids ∧
        buyer.strategy = some (.cheater p acc chtd) ∧ rand < p) →
      (TrustSimulator.execute_deal round_num cheater_ids rand buyer seller result log).1.budget =
        buyer.budget ∧
      (TrustSimulator.execute_deal round_num cheater_ids rand buyer seller result log).2.1.budget =
        seller.budget ∧
      (TrustSimulator.execute_deal round_num cheater_ids rand buyer seller result log).1.resources =
        buyer.resources + res ∧
      (TrustSimulator.execute_deal round_num cheater_ids rand buyer seller result log).2.1.resources =
        seller.resources - res ∧
      (TrustSimulator.execute_deal round_num cheater_ids rand buyer seller result log).1.budget +
          (TrustSimulator.execute_deal round_num cheater_ids rand buyer seller result log).2.1.budget =
        buyer.budget + seller.budget ∧
      (TrustSimulator.execute_deal round_num cheater_ids rand buyer seller result log).1.resources +
          (TrustSimulator.execute_deal round_num cheater_ids rand buyer seller result log).2.1.resources =
        buyer.resources + seller.resources) := by
  obtain ⟨bid, sid, ropt, price, agr, rnds, msgs⟩ := result
  obtain rfl : ropt = some res := hres
  obtain rfl : agr = true := hagree
  simp only [TrustSimulator.execute_deal]
  constructor
  · rintro ⟨hmem, hstrat, hrand⟩
    rw [if_pos hmem, hstrat]
    simp only []
    rw [if_pos hrand]
    refine ⟨by simp, by simp, by simp, by simp, by simp, by simp⟩
  · rintro ⟨hnot, hmem, hstrat, hrand⟩
    rw [if_neg hnot, if_pos hmem, hstrat]
    simp only []
    rw [if_pos hrand]
    refine ⟨by simp, by simp, by simp, by simp, by simp, ?_⟩
    simp only [record_deal_resources]
    exact Resource.add_add_sub buyer.resources seller.resources res

/-- Witness for C10 at a concrete seller-side cheat. -/
theorem trust_cheat_conserves_w :
    (TrustSimulator.execute_deal 1 ["mallory"] (1 / 2) buyerC8 sellerC8 resultC8 []).1.budget +
        (TrustSimulator.execute_deal 1 ["mallory"] (1 / 2) buyerC8 sellerC8 resultC8 []).2.1.budget =
      buyerC8.budget + sellerC8.budget ∧
    (TrustSimulator.execute_deal 1 ["mallory"] (1 / 2) buyerC8 sellerC8 resultC8 []).1.resources +
        (TrustSimulator.execute_deal 1 ["mallory"] (1 / 2) buyerC8 sellerC8 resultC8 []).2.1.resources =
      buyerC8.resources + sellerC8.resources := by
  have h := (trust_cheat_conserves 1 ["mallory"] (1 / 2) buyerC8 sellerC8
    resultC8 { gpu_hours := 5 } [] 1 0 0 rfl rfl).1
    ⟨by simp [sellerC8], rfl, by norm_num⟩
  exact ⟨h.2.2.2.2.1, h.2.2.2.2.2⟩

theorem reputation_of_update_self (a : Agent) (pid : String) (delta : ℚ) :
    (a.update_reputation pid delta).reputation_of pid =
      max 0 (min 1 (a.reputation_of pid + delta)) := by
  simp [Agent.update_reputation, Agent.reputation_of, lookupKey_setKey_same]

theorem record_deal_rep (a : Agent) (d : Deal) :
    (a.record_deal d).reputation_of d.partner_id =
      max 0 (min 1 (a.reputation_of d.partner_id +
        (if d.fulfilled then 1 / 10 else -(3 / 10)))) := by
  unfold Agent.record_deal
  rw [reputation_of_update_self]
  simp [Agent.reputation_of]

theorem repAfter_zero : repAfter 0 = 1 / 2 := by
  norm_num [repAfter]

theorem repAfter_le_half (k : ℕ) : repAfter k ≤ 1 / 2 := by
  unfold repAfter
  apply max_le
  · norm_num
  · have h : (0 : ℚ) ≤ (3 / 10) * k := by positivity
    linarith

theorem repAfter_succ (k : ℕ) :
    repAfter (k + 1) = max 0 (min 1 (repAfter k - 3 / 10)) := by
  have hhalf := repAfter_le_half k
  rw [min_eq_right (by linarith)]
  unfold repAfter
  push_cast
  rcases le_total 0 ((1 : ℚ) / 2 - 3 / 10 * k) with h | h
  · rw [max_eq_right h]
    congr 1
    ring
  · have hL : (1 : ℚ) / 2 - 3 / 10 * ((k : ℚ) + 1) ≤ 0 := by linarith
    rw [max_eq_left hL, max_eq_left h, max_eq_left (by norm_num : (0 : ℚ) - 3 / 10 ≤ 0)]

theorem repAfter_antitone (k : ℕ) : repAfter (k + 1) ≤ repAfter k := by
  unfold repAfter
  apply max_le_max le_rfl
  push_cast
  linarith

theorem repAfter_floor (k : ℕ) (h : 2 ≤ k) : repAfter k = 0 := by
  unfold repAfter
  apply max_eq_left
  have hk : (2 : ℚ) ≤ (k : ℚ) := by exact_mod_cast h
  linarith

theorem trust_cheat_step (round_num : ℕ) (cheater_ids : List String) (r : ℚ)
    (buyer seller : Agent) (result : NegotiationResult) (res : Resource)
    (log : List DefaultEntry) (acc chtd : ℕ)
    (hstrat : seller.strategy = some (.cheater 1 acc chtd))
    (hmem : seller.agent_id ∈ cheater_ids)
    (hagree : result.agreed = true) (hres : result.resource = some res)
    (hrand : r < 1) :
    (TrustSimulator.execute_deal round_num cheater_ids r buyer seller result log).2.2.2.length =
      log.length + 1 ∧
    (TrustSimulator.execute_deal round_num cheater_ids r buyer seller result log).1.reputation_of
        seller.agent_id =
      max 0 (min 1 (buyer.reputation_of seller.agent_id - 3 / 10)) ∧
    (TrustSimulator.execute_deal round_num cheater_ids r buyer seller result log).2.1.agent_id =
      seller.agent_id ∧
    (TrustSimulator.execute_deal round_num cheater_ids r buyer seller result log).2.1.strategy =
      some (.cheater 1 (acc + 1) (chtd + 1)) := by
  obtain ⟨bid, sid, ropt, price, agr, rnds, msgs⟩ := result
  obtain rfl : ropt = some res := hres
  obtain rfl : agr = true := hagree
  simp only [TrustSimulator.execute_deal]
  rw [if_pos hmem, hstrat]
  simp only []
  rw [if_pos hrand]
  refine ⟨by simp, ?_, by simp, by simp⟩
  have h := record_deal_rep
    { buyer with budget := buyer.budget - price }
    ⟨seller.agent_id, res, price, round_num, false⟩
  simp only [Bool.false_eq_true, if_false] at h
  rw [h]
  simp [Agent.reputation_of, sub_eq_add_neg]

theorem iterateDeals_cheat (round_num : ℕ) (cheater_ids : List String) :
    ∀ (events : List (ℚ × NegotiationResult)) (buyer seller : Agent)
      (log : List DefaultEntry) (k acc chtd : ℕ),
      seller.strategy = some (.cheater 1 acc chtd) →
      seller.agent_id ∈ cheater_ids →
      buyer.reputation_of seller.agent_id = repAfter k →
      (∀ e ∈ events, e.1 < 1 ∧ e.2.agreed = true ∧ e.2.resource ≠ none) →
      (iterateDeals round_num cheater_ids events (buyer, seller, log)).2.2.length =
          log.length + events.length ∧
      (iterateDeals round_num cheater_ids events (buyer, seller, log)).1.reputation_of
          seller.agent_id = repAfter (k + events.length) := by
  intro events
  induction events with
  | nil =>
    intro buyer seller log k acc chtd hstrat hmem hrep hev
    simpa [iterateDeals] using hrep
  | cons e rest ih =>
    intro buyer seller log k acc chtd hstrat hmem hrep hev
    obtain ⟨hrand, hagree, hresne⟩ := hev e (List.mem_cons_self _ _)
    obtain ⟨res, hres⟩ := Option.ne_none_iff_exists'.mp hresne
    have step := trust_cheat_step round_num cheater_ids e.1 buyer seller e.2
      res log acc chtd hstrat hmem hagree hres hrand
    have hrep1 : (TrustSimulator.execute_deal round_num cheater_ids e.1 buyer
        seller e.2 log).1.reputation_of
        (TrustSimulator.execute_deal round_num cheater_ids e.1 buyer seller
          e.2 log).2.1.agent_id = repAfter (k + 1) := by
      rw [step.2.2.1, step.2.1, hrep, repAfter_succ]
    have hmem1 : (TrustSimulator.execute_deal round_num cheater_ids e.1 buyer
        seller e.2 log).2.1.agent_id ∈ cheater_ids := by
      rw [step.2.2.1]; exact hmem
    have ihe := ih
      (TrustSimulator.execute_deal round_num cheater_ids e.1 buyer seller e.2 log).1
      (TrustSimulator.execute_deal round_num cheater_ids e.1 buyer seller e.2 log).2.1
      (TrustSimulator.execute_deal round_num cheater_ids e.1 buyer seller e.2 log).2.2.2
      (k + 1) (acc + 1) (chtd + 1) step.2.2.2 hmem1 hrep1
      (fun x hx => hev x (List.mem_cons_of_mem _ hx))
    obtain ⟨er, eres⟩ := e
    simp only [iterateDeals]
    constructor
    · rw [ihe.1, step.1]
      simp [List.length_cons]
      omega
    · rw [← step.2.2.1]
      rw [ihe.2]
      congr 1
      simp [List.length_cons]
      omega

/-- Claim C8 counterexample: from the neutral 0.5 baseline, the 0.0 clamp
floor is reached after 2 consecutive -0.3 reputation penalties (0.5 then
0.2 then 0.0), not after roughly 17. -/
theorem rep_floor_after_two_cex :
    ((buyerC8.update_reputation "mallory" (-(3 / 10))).update_reputation
        "mallory" (-(3 / 10))).reputation_of "mallory" = 0 ∧
    (buyerC8.update_reputation "mallory" (-(3 / 10))).reputation_of "mallory" =
      1 / 5 := by
  norm_num [Agent.update_reputation, Agent.reputation_of, lookupKey, setKey,
    buyerC8, min_def, max_def]

/-- Claim C8 (amended): an always-cheating counterparty (cheat probability
1, every random draw below 1) inside the TrustSimulator produces exactly
one default-log entry per agreed negotiation it is a counterparty to — M
entries across M such negotiations — and the victim-side reputation of the
cheater decreases monotonically toward 0.0, reaching the clamp floor after
2 (not roughly 17) consecutive -0.3 penalties from the 0.5 baseline. -/
theorem cheater_logs_and_rep_floor (round_num : ℕ) (cheater_ids : List String)
    (events : List (ℚ × NegotiationResult)) (buyer seller : Agent)
    (log : List DefaultEntry) (acc chtd : ℕ)
    (hstrat : seller.strategy = some (.cheater 1 acc chtd))
    (hmem : seller.agent_id ∈ cheater_ids)
    (hfresh : lookupKey buyer.reputation_table seller.agent_id = none)
    (hev : ∀ e ∈ events, e.1 < 1 ∧ e.2.agreed = true ∧ e.2.resource ≠ none) :
    (iterateDeals round_num cheater_ids events (buyer, seller, log)).2.2.length =
        log.length + events.length ∧
    (iterateDeals round_num cheater_ids events (buyer, seller, log)).1.reputation_of
        seller.agent_id = repAfter events.length ∧
    (∀ k, repAfter (k + 1) ≤ repAfter k) ∧
    (∀ k, 2 ≤ k → repAfter k = 0) := by
  have h0 : buyer.reputation_of seller.agent_id = repAfter 0 := by
    rw [repAfter_zero]
    simp [Agent.reputation_of, hfresh]
  have main := iterateDeals_cheat round_num cheater_ids events buyer seller
    log 0 acc chtd hstrat hmem h0 hev
  refine ⟨main.1, ?_, repAfter_antitone, repAfter_floor⟩
  simpa using main.2

/-- Witness for C8's amended claim: two agreed deals against the concrete
always-cheater yield two log entries and a reputation already at the
floor. -/
theorem cheater_logs_and_rep_floor_w :
    (iterateDeals 1 ["mallory"] eventsC8 (buyerC8, sellerC8, [])).2.2.length = 2 ∧
    (iterateDeals 1 ["mallory"] eventsC8 (buyerC8, sellerC8, [])).1.reputation_of
      sellerC8.agent_id = repAfter 2 ∧
    repAfter 2 = 0 := by
  have h := cheater_logs_and_rep_floor 1 ["mallory"] eventsC8 buyerC8 sellerC8
    [] 0 0 rfl (by simp [sellerC8]) rfl
    (by intro e he
        simp only [eventsC8, resultC8, List.mem_cons, List.mem_singleton] at he
        rcases he with rfl | rfl | h
        · exact ⟨by norm_num, rfl, by simp⟩
        · exact ⟨by norm_num, rfl, by simp⟩
        · cases h)
  refine ⟨?_, ?_, h.2.2.2 2 le_rfl⟩
  · have := h.1
    simpa [eventsC8] using this
  · have := h.2.1
    simpa [eventsC8] using this

/-- Claim C3 counterexample: a Broker seller holding 2 gpu-hours that
receives a REQUEST for 10 gpu-hours replies REJECT with reason
`no_resources_but_tracking`, not `insufficient_resources` — so it is false
that every strategy variant rejects with reason `insufficient_resources`
in this scenario. -/
theorem broker_insufficient_cex :
    ((Strategy.broker (1 / 10) [] []).decide "brk" { gpu_hours := 2 } 50 reqC3).2 =
      some (reqC3.reply .reject { reason := some "no_resources_but_tracking" }) ∧
    "no_resources_but_tracking" ≠ "insufficient_resources" := by
  constructor
  · norm_num [Strategy.decide, Resource.from_dict, Resource.can_afford, reqC3]
  · decide

/-- Claim C3 (amended): when an agent's holdings cannot afford the
requested resource of an incoming REQUEST, the Greedy, Fair, Patient and
Adaptive strategies each reply REJECT with reason `insufficient_resources`
on the first turn without countering; the Broker strategy also rejects
without countering but with reason `no_resources_but_tracking`, and the
Cheater strategy (which performs no affordability check) never replies
REJECT with reason `insufficient_resources`. -/
theorem insufficient_resources_reject (aid : String) (resources : Resource)
    (budget : ℚ) (msg : Message) (rd : ResourceDict)
    (hty : msg.msg_type = MessageType.request)
    (hrd : msg.payload.resource = some rd)
    (haff : resources.can_afford (Resource.from_dict rd) = false) :
    (∀ g, ((Strategy.greedy g).decide aid resources budget msg).2 =
        some (msg.reply .reject { reason := some "insufficient_resources" })) ∧
    (∀ t, ((Strategy.fair t).decide aid resources budget msg).2 =
        some (msg.reply .reject { reason := some "insufficient_resources" })) ∧
    (∀ p w, ((Strategy.patient p w).decide aid resources budget msg).2 =
        some (msg.reply .reject { reason := some "insufficient_resources" })) ∧
    (∀ pb lr h, ((Strategy.adaptive pb lr h).decide aid resources budget msg).2 =
        some (msg.reply .reject { reason := some "insufficient_resources" })) ∧
    (∀ c kp ks, ((Strategy.broker c kp ks).decide aid resources budget msg).2 =
        some (msg.reply .reject { reason := some "no_resources_but_tracking" })) ∧
    (∀ cp ca cc, ((Strategy.cheater cp ca cc).decide aid resources budget msg).2 ≠
        some (msg.reply .reject { reason := some "insufficient_resources" })) := by
  obtain ⟨mt, snd, rcv, pl⟩ := msg
  obtain rfl : mt = MessageType.request := hty
  obtain ⟨ro, mp, pr, ur, re, br, qu⟩ := pl
  obtain rfl : ro = some rd := hrd
  refine ⟨?_, ?_, ?_, ?_, ?_, ?_⟩
  · intro g
    simp only [Strategy.decide]
    rw [if_pos haff]
  · intro t
    simp only [Strategy.decide]
    rw [if_pos haff]
  · intro p w
    simp only [Strategy.decide]
    rw [if_pos haff]
  · intro pb lr h
    simp only [Strategy.decide]
    rw [if_pos haff]
  · intro c kp ks
    simp only [Strategy.decide]
    rw [if_neg (by simp [haff])]
  · intro cp ca cc heq
    simp only [Strategy.decide] at heq
    split at heq <;> simp [Message.reply] at heq

/-- Witness for C3's amended claim at the concrete 2-vs-10 gpu-hours
scenario. -/
theorem insufficient_resources_reject_w :
    ((Strategy.greedy (7 / 10)).decide "brk" { gpu_hours := 2 } 50 reqC3).2 =
      some (reqC3.reply .reject { reason := some "insufficient_resources" }) ∧
    ((Strategy.fair (3 / 20)).decide "brk" { gpu_hours := 2 } 50 reqC3).2 =
      some (reqC3.reply .reject { reason := some "insufficient_resources" }) ∧
    ((Strategy.patient (4 / 5) 0).decide "brk" { gpu_hours := 2 } 50 reqC3).2 =
      some (reqC3.reply .reject { reason := some "insufficient_resources" }) ∧
    ((Strategy.adaptive 1 (1 / 5) []).decide "brk" { gpu_hours := 2 } 50 reqC3).2 =
      some (reqC3.reply .reject { reason := some "insufficient_resources" }) ∧
    ((Strategy.broker (1 / 10) [] []).decide "brk" { gpu_hours := 2 } 50 reqC3).2 =
      some (reqC3.reply .reject { reason := some "no_resources_but_tracking" }) ∧
    ((Strategy.cheater 1 0 0).decide "brk" { gpu_hours := 2 } 50 reqC3).2 ≠
      some (reqC3.reply .reject { reason := some "insufficient_resources" }) := by
  have h := insufficient_resources_reject "brk" { gpu_hours := 2 } 50 reqC3
    { gpu_hours := some 10 } rfl rfl
    (by norm_num [Resource.can_afford, Resource.from_dict])
  exact ⟨h.1 _, h.2.1 _, h.2.2.1 _ _, h.2.2.2.1 _ _ _, h.2.2.2.2.1 _ _ _,
    h.2.2.2.2.2 _ _ _⟩

theorem receive_frame (a : Agent) (m : Message) :
    (a.receive m).1.resources = a.resources ∧
    (a.receive m).1.budget = a.budget ∧
    (a.receive m).1.reputation_table = a.reputation_table := by
  unfold Agent.receive
  cases a with
  | mk aid res bud strat urg pend deals rep log =>
    cases strat with
    | none => exact ⟨rfl, rfl, rfl⟩
    | some s => exact ⟨rfl, rfl, rfl⟩

theorem negoLoop_frame (buyer_id seller_id : String) (need : Resource) :
    ∀ (fuel turns : ℕ) (s b : Agent) (cur : Message) (msgs : List Message),
      ((negoLoop Agent.receive Agent.receive buyer_id seller_id need fuel
          turns s b cur msgs).1.resources = s.resources ∧
        (negoLoop Agent.receive Agent.receive buyer_id seller_id need fuel
          turns s b cur msgs).1.budget = s.budget ∧
        (negoLoop Agent.receive Agent.receive buyer_id seller_id need fuel
          turns s b cur msgs).1.reputation_table = s.reputation_table) ∧
      ((negoLoop Agent.receive Agent.receive buyer_id seller_id need fuel
          turns s b cur msgs).2.1.resources = b.resources ∧
        (negoLoop Agent.receive Agent.receive buyer_id seller_id need fuel
          turns s b cur msgs).2.1.budget = b.budget ∧
        (negoLoop Agent.receive Agent.receive buyer_id seller_id need fuel
          turns s b cur msgs).2.1.reputation_table = b.reputation_table) := by
  intro fuel
  induction fuel with
  | zero =>
    intro turns s b cur msgs
    exact ⟨⟨rfl, rfl, rfl⟩, ⟨rfl, rfl, rfl⟩⟩
  | succ fuel ih =>
    intro turns s b cur msgs
    have hS := receive_frame s cur
    simp only [negoLoop]
    rcases hSr : Agent.receive s cur with ⟨s1, o⟩
    rw [hSr] at hS
    cases o with
    | none => exact ⟨hS, ⟨rfl, rfl, rfl⟩⟩
    | some response =>
      dsimp only
      by_cases hacc : response.msg_type = MessageType.accept
      · rw [if_pos hacc]
        exact ⟨hS, ⟨rfl, rfl, rfl⟩⟩
      · rw [if_neg hacc]
        by_cases hrej : response.msg_type = MessageType.reject
        · rw [if_pos hrej]
          exact ⟨hS, ⟨rfl, rfl, rfl⟩⟩
        · rw [if_neg hrej]
          have hB := receive_frame b response
          rcases hBr : Agent.receive b response with ⟨b1, ob⟩
          rw [hBr] at hB
          cases ob with
          | none => exact ⟨hS, hB⟩
          | some buyer_response =>
            dsimp only
            by_cases hacc2 : buyer_response.msg_type = MessageType.accept
            · rw [if_pos hacc2]
              exact ⟨hS, hB⟩
            · rw [if_neg hacc2]
              by_cases hrej2 : buyer_response.msg_type = MessageType.reject
              · rw [if_pos hrej2]
                exact ⟨hS, hB⟩
              · rw [if_neg hrej2]
                have ihr := ih (turns + 1) s1 b1 buyer_response
                  (msgs ++ [response] ++ [buyer_response])
                refine ⟨⟨?_, ?_, ?_⟩, ⟨?_, ?_, ?_⟩⟩
                · rw [ihr.1.1, hS.1]
                · rw [ihr.1.2.1, hS.2.1]
                · rw [ihr.1.2.2, hS.2.2]
                · rw [ihr.2.1, hB.1]
                · rw [ihr.2.2.1, hB.2.1]
                · rw [ihr.2.2.2, hB.2.2]

/-- Claim C7: for every pair of agents and every need, the negotiation
engine leaves both agents' resource holdings, budgets and reputation
tables exactly as they were, whatever the negotiation's outcome — it
mutates no ledger and no reputation. -/
theorem negotiate_frame (max_turns : ℕ) (buyer seller : Agent)
    (need : Resource) (out : Agent × Agent × NegotiationResult)
    (h : Simulator.negotiate max_turns buyer seller need = Except.ok out) :
    out.1.resources = buyer.resources ∧ out.1.budget = buyer.budget ∧
    out.1.reputation_table = buyer.reputation_table ∧
    out.2.1.resources = seller.resources ∧ out.2.1.budget = seller.budget ∧
    out.2.1.reputation_table = seller.reputation_table := by
  unfold Simulator.negotiate at h
  cases hi : buyer.initiate_negotiation seller.agent_id need with
  | error e => rw [hi] at h; cases h
  | ok opening =>
    rw [hi] at h
    obtain rfl : negotiateFrom max_turns buyer seller opening need = out :=
      Except.ok.injEq _ _ ▸ (by injection h)
    have hf := negoLoop_frame buyer.agent_id seller.agent_id need max_turns 0
      seller buyer opening [opening]
    exact ⟨hf.2.1, hf.2.2.1, hf.2.2.2, hf.1.1, hf.1.2.1, hf.1.2.2⟩

/-- Witness for C7: the concrete Fair-vs-Fair negotiation leaves both
agents' ledgers and reputation tables untouched. -/
theorem negotiate_frame_w :
    (negotiateFrom 6 bW sW openW needW).1.resources = bW.resources ∧
    (negotiateFrom 6 bW sW openW needW).1.budget = bW.budget ∧
    (negotiateFrom 6 bW sW openW needW).1.reputation_table = bW.reputation_table ∧
    (negotiateFrom 6 bW sW openW needW).2.1.resources = sW.resources ∧
    (negotiateFrom 6 bW sW openW needW).2.1.budget = sW.budget ∧
    (negotiateFrom 6 bW sW openW needW).2.1.reputation_table = sW.reputation_table :=
  negotiate_frame 6 bW sW needW (negotiateFrom 6 bW sW openW needW) rfl

theorem negoLoop_spec {σ β : Type} (recvS : σ → Message → σ × Option Message)
    (recvB : β → Message → β × Option Message) (buyer_id seller_id : String)
    (need : Resource) :
    ∀ (fuel turns : ℕ) (s : σ) (b : β) (cur : Message) (msgs : List Message),
      (negoLoop recvS recvB buyer_id seller_id need fuel turns s b cur
          msgs).2.2.rounds ≤ turns + fuel ∧
      (∃ t, (negoLoop recvS recvB buyer_id seller_id need fuel turns s b cur
          msgs).2.2.messages = msgs ++ t) ∧
      ((∀ m ∈ (negoLoop recvS recvB buyer_id seller_id need fuel turns s b cur
            msgs).2.2.messages, m.msg_type ≠ MessageType.accept) →
        (negoLoop recvS recvB buyer_id seller_id need fuel turns s b cur
          msgs).2.2.agreed = false ∧
        (negoLoop recvS recvB buyer_id seller_id need fuel turns s b cur
          msgs).2.2.price = 0 ∧
        (negoLoop recvS recvB buyer_id seller_id need fuel turns s b cur
          msgs).2.2.resource = none) := by
  intro fuel
  induction fuel with
  | zero =>
    intro turns s b cur msgs
    exact ⟨Nat.le_add_right _ _, ⟨[], by simp [negoLoop]⟩,
      fun _ => ⟨rfl, rfl, rfl⟩⟩
  | succ fuel ih =>
    intro turns s b cur msgs
    simp only [negoLoop]
    rcases hSr : recvS s cur with ⟨s1, o⟩
    cases o with
    | none =>
      exact ⟨by dsimp only; omega, ⟨[], by simp⟩, fun _ => ⟨rfl, rfl, rfl⟩⟩
    | some response =>
      dsimp only
      by_cases hacc : response.msg_type = MessageType.accept
      · rw [if_pos hacc]
        refine ⟨by dsimp only; omega, ⟨[response], rfl⟩, ?_⟩
        intro hno
        exact absurd hacc (hno response (by simp))
      · rw [if_neg hacc]
        by_cases hrej : response.msg_type = MessageType.reject
        · rw [if_pos hrej]
          exact ⟨by dsimp only; omega, ⟨[response], rfl⟩, fun _ => ⟨rfl, rfl, rfl⟩⟩
        · rw [if_neg hrej]
          rcases hBr : recvB b response with ⟨b1, ob⟩
          cases ob with
          | none =>
            exact ⟨by dsimp only; omega, ⟨[response], rfl⟩, fun _ => ⟨rfl, rfl, rfl⟩⟩
          | some buyer_response =>
            dsimp only
            by_cases hacc2 : buyer_response.msg_type = MessageType.accept
            · rw [if_pos hacc2]
              refine ⟨by dsimp only; omega, ⟨[response, buyer_response], by simp⟩, ?_⟩
              intro hno
              exact absurd hacc2 (hno buyer_response (by simp))
            · rw [if_neg hacc2]
              by_cases hrej2 : buyer_response.msg_type = MessageType.reject
              · rw [if_pos hrej2]
                exact ⟨by dsimp only; omega, ⟨[response, buyer_response], by simp⟩,
                  fun _ => ⟨rfl, rfl, rfl⟩⟩
              · rw [if_neg hrej2]
                have ihr := ih (turns + 1) s1 b1 buyer_response
                  (msgs ++ [response] ++ [buyer_response])
                refine ⟨by have hb := ihr.1; omega, ?_, ihr.2.2⟩
                obtain ⟨t, ht⟩ := ihr.2.1
                exact ⟨[response] ++ [buyer_response] ++ t, by
                  rw [ht]; simp⟩

/-- Claim C2: a negotiation run with maximum turn count N terminates after
at most N seller-then-buyer exchanges; the trail starts with (and retains)
the buyer's opening message; and if no ACCEPT or REJECT message was
produced within the bound, the returned result has agreed = false, price 0
and no resource. -/
theorem negotiate_turn_cap (max_turns : ℕ) (buyer seller : Agent)
    (need : Resource) (out : Agent × Agent × NegotiationResult)
    (h : Simulator.negotiate max_turns buyer seller need = Except.ok out) :
    out.2.2.rounds ≤ max_turns ∧
    (∀ opening, buyer.initiate_negotiation seller.agent_id need = Except.ok opening →
      ∃ t, out.2.2.messages = opening :: t) ∧
    ((∀ m ∈ out.2.2.messages,
        m.msg_type ≠ MessageType.accept ∧ m.msg_type ≠ MessageType.reject) →
      out.2.2.agreed = false ∧ out.2.2.price = 0 ∧ out.2.2.resource = none) := by
  unfold Simulator.negotiate at h
  cases hi : buyer.initiate_negotiation seller.agent_id need with
  | error e => rw [hi] at h; cases h
  | ok opening =>
    rw [hi] at h
    obtain rfl : negotiateFrom max_turns buyer seller opening need = out :=
      by injection h
    have hs := negoLoop_spec Agent.receive Agent.receive buyer.agent_id
      seller.agent_id need max_turns 0 seller buyer opening [opening]
    refine ⟨by simpa [negotiateFrom] using hs.1, ?_, ?_⟩
    · intro op hop
      obtain rfl : opening = op := by injection hop
      obtain ⟨t, ht⟩ := hs.2.1
      exact ⟨t, by simpa [negotiateFrom] using ht⟩
    · intro hno
      exact hs.2.2 fun m hm => (hno m hm).1

/-- Witness for C2: the concrete Greedy-vs-Greedy negotiation with
max_turns = 2 counters forever, so it times out within the bound with
agreed = false, price 0 and no resource. -/
theorem negotiate_turn_cap_w :
    (negotiateFrom 2 bG sG openG needW).2.2.rounds ≤ 2 ∧
    (negotiateFrom 2 bG sG openG needW).2.2.agreed = false ∧
    (negotiateFrom 2 bG sG openG needW).2.2.price = 0 ∧
    (negotiateFrom 2 bG sG openG needW).2.2.resource = none := by
  have h := negotiate_turn_cap 2 bG sG needW
    (negotiateFrom 2 bG sG openG needW) rfl
  have h3 := h.2.2 (by
    norm_num [negotiateFrom, negoLoop, Agent.receive, Strategy.decide,
      Message.reply, Resource.from_dict, Resource.to_dict, price_per_unit,
      Resource.total_units, Resource.can_afford, bG, sG, openG, needW,
      Strategy.initiate]
    simp)
  exact ⟨h.1, h3.1, h3.2.1, h3.2.2⟩

end AgentNeg
